import Mathlib

/-!
Shallow embedding of `traits/trait_handlers.py`: the trait-handler
(validator) classes and the parts of their behaviour the verification
below is about.  Python values are modelled by the inductive `Value`,
Python runtime types by `PyType`, objects by association lists from
attribute names to values, and raised `TraitError`s by the `Except`
monad over `TraitErr`.  Error-message construction (`TraitHandler.error`
and `full_info` live in `trait_handler.py`, which is outside the
sources) is modelled as each handler carrying a description string,
following the handlers' own `info()` methods where those are in the
sources.
-/

/-- Python runtime types that occur in the validators under study. -/
inductive PyType where
  | int
  | float
  | complex
  | str
  | bool
  | tuple
  | list
  | dict
  | noneType
deriving DecidableEq, Repr

/-- Python values, shallowly embedded.  Python floats are modelled as
exact rationals (the spec speaks of exact real-valued widening), and
complex numbers as pairs of rationals. -/
inductive Value where
  | int (i : Int)
  | float (q : ℚ)
  | complex (re im : ℚ)
  | str (s : String)
  | bool (b : Bool)
  | tuple (xs : List Value)
  | list (xs : List Value)
  | pyNone

mutual

/-- Structural equality on values (Python `==` restricted to
identically-shaped values; `pyEq` below adds the cross-type numeric
cases). -/
def Value.beq : Value → Value → Bool
  | .int a, .int b => a == b
  | .float a, .float b => a == b
  | .complex a b, .complex c d => a == c && b == d
  | .str a, .str b => a == b
  | .bool a, .bool b => a == b
  | .tuple xs, .tuple ys => Value.beqList xs ys
  | .list xs, .list ys => Value.beqList xs ys
  | .pyNone, .pyNone => true
  | _, _ => false

/-- Elementwise structural equality of value lists. -/
def Value.beqList : List Value → List Value → Bool
  | [], [] => true
  | x :: xs, y :: ys => Value.beq x y && Value.beqList xs ys
  | _, _ => false

end

/-- The runtime type of a value, `type(value)` in Python.  Note that a
Python `bool` has runtime type `bool`, not `int`, even though `bool` is
a subclass of `int`. -/
def typeOf : Value → PyType
  | .int _ => .int
  | .float _ => .float
  | .complex _ _ => .complex
  | .str _ => .str
  | .bool _ => .bool
  | .tuple _ => .tuple
  | .list _ => .list
  | .pyNone => .noneType

/-- Python's numeric tower view of a scalar value, used by `==`:
booleans, ints, floats and complexes compare by numeric value. -/
def toC? : Value → Option (ℚ × ℚ)
  | .int i => some ((i : ℚ), 0)
  | .bool b => some (if b then 1 else 0, 0)
  | .float q => some (q, 0)
  | .complex re im => some (re, im)
  | _ => Option.none

/-- Python `==` on the values above: numeric values compare by value
across types; everything else structurally. -/
def pyEq (v w : Value) : Bool :=
  match toC? v, toC? w with
  | some a, some b => decide (a = b)
  | _, _ => Value.beq v w

/-- An owning object, reduced to what the handlers use of it: its
attribute mapping.  `setattr` prepends, so the latest binding wins. -/
def Obj : Type := List (String × Value)

/-- `setattr(object, n, v)`. -/
def Obj.setattr (o : Obj) (n : String) (v : Value) : Obj :=
  (n, v) :: o

/-- `getattr(object, n, None)`: first binding for `n`. -/
def Obj.getattr (o : Obj) (n : String) : Option Value :=
  (List.find? (fun p => p.1 = n) o).map (·.2)

/-- A raised `TraitError`.  The `validation` constructor carries the
handler's description of what it expected; `unmappable` stands for the
distinguished `TraitError("Unmappable")` raised by shadow-value
computation in `post_setattr`. -/
inductive TraitErr where
  | validation (info : String)
  | unmappable
deriving DecidableEq, Repr

/-- The type of a handler's `validate` method. -/
def VFn : Type := Obj → String → Value → Except TraitErr Value

/-- The type of a handler's `post_setattr` method: it may raise, and on
success yields the owning object with the shadow attribute written. -/
def PFn : Type := Obj → String → Value → Except TraitErr Obj

/-- A minimal `repr` for values, used only to build description
strings. -/
def reprV : Value → String
  | .int i => toString i
  | .float q => toString q.num ++ "/" ++ toString q.den
  | .complex _ _ => "complex"
  | .str s => "'" ++ s ++ "'"
  | .bool b => cond b "True" "False"
  | .tuple _ => "a tuple"
  | .list _ => "a list"
  | .pyNone => "None"

/-- Modelled from the spec: the widening table `CoercableTypes` lives in
`trait_base.py`, which is outside the sources.  Per the spec a value of
the target type is returned unchanged and only widening coercions are
listed: integer widens to real (`float`), and real or integer widen to
`complex`.  The result gives, for a target type, the tuple tail
`fast_validate[2:]` of coercible source types, or `none` when the
target type has no table entry (the `except` branch of
`TraitCoerceType.__init__`). -/
def CoercableTypes : PyType → Option (List PyType)
  | .float => some [.int]
  | .complex => some [.float, .int]
  | _ => Option.none

/-- `TraitCoerceType`, reduced to its stored target type `aType`. -/
structure TraitCoerceType where
  aType : PyType
deriving DecidableEq, Repr

/-- The coercible source types of a `TraitCoerceType`:
`fast_validate[2:]`, empty when the target has no `CoercableTypes`
entry. -/
def TraitCoerceType.coerceList (h : TraitCoerceType) : List PyType :=
  (CoercableTypes h.aType).getD []

/-- Name of a Python type, used in descriptions. -/
def pyTypeName : PyType → String
  | .int => "int"
  | .float => "float"
  | .complex => "complex"
  | .str => "str"
  | .bool => "bool"
  | .tuple => "tuple"
  | .list => "list"
  | .dict => "dict"
  | .noneType => "NoneType"

/-- `TraitCoerceType.info`. -/
def TraitCoerceType.info (h : TraitCoerceType) : String :=
  "a value of class '" ++ pyTypeName h.aType ++ "'"

/-- Calling the target type on a value, `fast_validate[1](value)`, for
the widening conversions that can actually be reached through the
coercion table. -/
def widen (t : PyType) (v : Value) : Value :=
  match t, v with
  | .float, .int i => .float (i : ℚ)
  | .complex, .int i => .complex (i : ℚ) 0
  | .complex, .float q => .complex q 0
  | _, _ => v

/-- `TraitCoerceType.validate`: exact type identity returns the value
unchanged; a type listed in `fast_validate[2:]` is widened; anything
else raises. -/
def TraitCoerceType.validate (h : TraitCoerceType) (_o : Obj) (_n : String)
    (v : Value) : Except TraitErr Value :=
  if typeOf v = h.aType then .ok v
  else if h.coerceList.contains (typeOf v) then .ok (widen h.aType v)
  else .error (.validation h.info)

/-- Python's subclass relation restricted to the builtin types above:
`bool` is the only strict subclass (of `int`) among them. -/
def isStrictSubclassOf : PyType → PyType → Bool
  | .bool, .int => true
  | _, _ => false

/-- `TraitEnum`: an ordered tuple of allowed literal values. -/
structure TraitEnum where
  values : List Value

/-- `TraitEnum.info`. -/
def TraitEnum.info (e : TraitEnum) : String :=
  String.intercalate " or " (e.values.map reprV)

/-- `TraitEnum.validate`: membership (Python `in`, i.e. `==` against
each element) returns the value, otherwise raise. -/
def TraitEnum.validate (e : TraitEnum) (_o : Obj) (_n : String)
    (v : Value) : Except TraitErr Value :=
  if e.values.any (fun x => pyEq v x) then .ok v
  else .error (.validation e.info)

/-- `TraitPrefixList`: the ordered full strings plus the mutable cache
`values_`, an association list grown monotonically by `validate`. -/
structure TraitPrefixList where
  values : List String
  values_ : List (String × String)

/-- `TraitPrefixList.__init__`: the cache starts out mapping every full
string to itself. -/
def TraitPrefixList.make (values : List String) : TraitPrefixList :=
  { values := values, values_ := values.map (fun k => (k, k)) }

/-- Lookup in the cache, Python `value in self.values_` /
`self.values_[value]`. -/
def lookupCache : List (String × String) → String → Option String
  | [], _ => Option.none
  | (k, r) :: rest, v => if k = v then some r else lookupCache rest v

/-- The scan loop of `TraitPrefixList.validate`: walk the full strings
carrying the match found so far; a second match resets the result to
`none` and stops (the `break`). -/
def prefixScan : List String → String → Option String → Option String
  | [], _, m => m
  | k :: rest, v, m =>
    if v == k.take v.length then
      match m with
      | some _ => Option.none
      | Option.none => prefixScan rest v (some k)
    else prefixScan rest v m

/-- `TraitPrefixList.info`. -/
def TraitPrefixList.info (h : TraitPrefixList) : String :=
  String.intercalate " or " (h.values.map (fun s => "'" ++ s ++ "'"))
    ++ " (or any unique prefix)"

/-- `TraitPrefixList.validate`.  The Python method mutates
`self.values_`; here the (possibly extended) handler is returned
alongside the accepted value. -/
def TraitPrefixList.validate (h : TraitPrefixList) (_o : Obj)
    (_n : String) (v : String) :
    Except TraitErr (String × TraitPrefixList) :=
  match lookupCache h.values_ v with
  | some r => .ok (r, h)
  | Option.none =>
    match prefixScan h.values v Option.none with
    | some m => .ok (m, { h with values_ := h.values_ ++ [(v, m)] })
    | Option.none => .error (.validation h.info)

/-- `TraitMap`: the key-to-shadow-value mapping, as an association
list. -/
structure TraitMap where
  map : List (Value × Value)

/-- Python `value in self.map`: some key compares `==` to the
candidate. -/
def keyMem (m : List (Value × Value)) (v : Value) : Bool :=
  m.any (fun p => pyEq v p.1)

/-- Python `self.map[value]`: the value at the first key comparing
`==`, or `none` for a `KeyError`. -/
def lookupPy (m : List (Value × Value)) (v : Value) : Option Value :=
  (m.find? (fun p => pyEq v p.1)).map (·.2)

/-- Insert a string into a sorted list, for `TraitMap.info`'s
`sorted`. -/
def insertSorted (s : String) : List String → List String
  | [] => [s]
  | x :: xs => if s ≤ x then s :: x :: xs else x :: insertSorted s xs

/-- Sort a list of strings. -/
def sortStrings (xs : List String) : List String :=
  xs.foldr insertSorted []

/-- `TraitMap.info`: the sorted reprs of the keys joined with
" or ". -/
def TraitMap.info (h : TraitMap) : String :=
  String.intercalate " or " (sortStrings (h.map.map (fun p => reprV p.1)))

/-- `TraitMap.validate`: membership in the mapping's keys; the accepted
value is the candidate (the key) itself, never the mapped value. -/
def TraitMap.validate (h : TraitMap) (_o : Obj) (_n : String)
    (v : Value) : Except TraitErr Value :=
  if keyMem h.map v then .ok v
  else .error (.validation h.info)

/-- `TraitMap.mapped_value`: `self.map[value]`, `none` on `KeyError`. -/
def TraitMap.mapped_value (h : TraitMap) (v : Value) : Option Value :=
  lookupPy h.map v

/-- `TraitMap.post_setattr`: write the mapped value to the shadow
attribute `name + "_"`; any failure of the shadow-value computation is
raised as the distinguished `TraitError("Unmappable")`.  (Failure of
the `setattr` call itself is caught by the same `except`; the modelled
`Obj.setattr` is total.) -/
def TraitMap.post_setattr (h : TraitMap) (o : Obj) (n : String)
    (v : Value) : Except TraitErr Obj :=
  match h.mapped_value v with
  | some mv => .ok (o.setattr (n ++ "_") mv)
  | Option.none => .error .unmappable

/-- `TraitTuple`: the per-slot validators (`self.types`, each a trait
whose handler's `validate` is invoked per element; the `trait_from`
normalization lives outside the sources, so slots are carried directly
as validate functions). -/
structure TraitTuple where
  types : List VFn

/-- `TraitTuple`'s description; the slot-by-slot `full_info` formatting
of `trait_handler.py` is outside the sources and elided. -/
def TraitTuple.info (_h : TraitTuple) : String :=
  "a tuple of the required form"

/-- The element loop of `TraitTuple.validate`: validate each element
against its slot, propagating the first failure. -/
def validateSlots (o : Obj) (n : String) :
    List VFn → List Value → Except TraitErr (List Value)
  | [], _ => .ok []
  | _, [] => .ok []
  | f :: fs, x :: xs =>
    match f o n x with
    | .error e => .error e
    | .ok r =>
      match validateSlots o n fs xs with
      | .error e => .error e
      | .ok rs => .ok (r :: rs)

/-- `TraitTuple.validate`: the candidate must be a tuple of exactly the
configured arity whose elements all validate; any inner exception is
swallowed by the bare `except` and the tuple handler's own error is
raised.  On success the value is the new tuple of per-slot results. -/
def TraitTuple.validate (h : TraitTuple) (o : Obj) (n : String)
    (v : Value) : Except TraitErr Value :=
  match v with
  | .tuple xs =>
    if xs.length = h.types.length then
      match validateSlots o n h.types xs with
      | .ok vs => .ok (.tuple vs)
      | .error _ => .error (.validation h.info)
    else .error (.validation h.info)
  | _ => .error (.validation h.info)

/-- `TraitList`: item trait (carried as its handler's validate
function), the stored length bounds, and the `has_items` item-tracking
flag. -/
structure TraitList where
  item_trait : VFn
  minlen : Int
  maxlen : Int
  has_items : Bool

/-- `TraitList.__init__`: `self.minlen = max(0, minlen)` and
`self.maxlen = max(minlen, maxlen)` — note the second clamp uses the
raw `minlen` argument, not the already-clamped `self.minlen`. -/
def TraitList.make (trait : VFn) (minlen maxlen : Int)
    (has_items : Bool) : TraitList :=
  { item_trait := trait
    minlen := max 0 minlen
    maxlen := max minlen maxlen
    has_items := has_items }

/-- `TraitList`'s description (`full_info` formatting elided). -/
def TraitList.info (_h : TraitList) : String :=
  "a list of the required length"

/-- `TraitList.clone`: rebuild through `__init__` with the stored
configuration. -/
def TraitList.clone (h : TraitList) : TraitList :=
  TraitList.make h.item_trait h.minlen h.maxlen h.has_items

/-- `TraitList.validate`: a `list` whose length lies within the stored
bounds is accepted and wrapped in a `TraitListObject` seeded with the
elements (the observable container lives in `trait_list_object.py`,
outside the sources; the wrapper is modelled as the list value
itself). -/
def TraitList.validate (h : TraitList) (_o : Obj) (_n : String)
    (v : Value) : Except TraitErr Value :=
  match v with
  | .list xs =>
    if h.minlen ≤ (xs.length : Int) ∧ (xs.length : Int) ≤ h.maxlen then
      .ok (.list xs)
    else .error (.validation h.info)
  | _ => .error (.validation h.info)

/-- `TraitDict`: key trait (as its validate function), the originally
supplied value trait's handler, the `has_items` flag, and the stored
working `value_handler`.  The value handler is duck-typed in the
source (any handler with `has_items` and `clone`); `TraitList` is the
in-file representative used here, matching the cited
`TraitList.clone`. -/
structure TraitDict where
  key_trait : VFn
  value_trait : TraitList
  has_items : Bool
  value_handler : TraitList

/-- `TraitDict.__init__`: if the value trait's handler tracks items,
store a clone of it with `has_items` switched off as the working value
handler; otherwise store the handler itself. -/
def TraitDict.make (key_trait : VFn) (value_trait : TraitList)
    (has_items : Bool) : TraitDict :=
  let handler := value_trait
  let handler :=
    if handler.has_items then
      { handler.clone with has_items := false }
    else handler
  { key_trait := key_trait
    value_trait := value_trait
    has_items := has_items
    value_handler := handler }

/-- `TraitDict`'s description (`full_info` formatting elided). -/
def TraitDict.info (_h : TraitDict) : String :=
  "a dictionary"

/-- The surface of a sub-handler as `TraitCompound.set_validate`
consumes it through `getattr`: whether a `fast_validate` descriptor is
present, the `validate` method, the optional `post_setattr` method, the
`is_mapped` and `has_items` flags, and the `info()` description. -/
structure SubHandler where
  hasFastValidate : Bool
  validate : VFn
  post_setattr : Option PFn
  is_mapped : Bool
  has_items : Bool
  info : String

/-- Modelled from the spec: the base `TraitHandler` class lives in
`trait_handler.py`, outside the sources; per the spec `is_mapped` is
true iff the validator produces a shadow value, so every non-mapped
handler inherits `is_mapped = False` (and likewise `has_items = False`)
unless it overrides them. -/
def TraitHandler.is_mapped_default : Bool := false

/-- Modelled from the spec: base-class default for `has_items`; see
`TraitHandler.is_mapped_default`. -/
def TraitHandler.has_items_default : Bool := false

/-- A `TraitEnum` seen through the sub-handler surface: it sets
`fast_validate` in `__init__`, defines no `post_setattr`, and inherits
the base defaults for `is_mapped` and `has_items`. -/
def TraitEnum.toSubHandler (e : TraitEnum) : SubHandler :=
  { hasFastValidate := true
    validate := e.validate
    post_setattr := Option.none
    is_mapped := TraitHandler.is_mapped_default
    has_items := TraitHandler.has_items_default
    info := e.info }

/-- A `TraitMap` seen through the sub-handler surface: it sets
`fast_validate` in `__init__`, overrides `is_mapped = True` at class
level, and defines `post_setattr`. -/
def TraitMap.toSubHandler (h : TraitMap) : SubHandler :=
  { hasFastValidate := true
    validate := h.validate
    post_setattr := some h.post_setattr
    is_mapped := true
    has_items := TraitHandler.has_items_default
    info := h.info }

/-- `TraitCompound`: the ordered sub-handlers. -/
structure TraitCompound where
  handlers : List SubHandler

/-- The state the `set_validate` loop accumulates.  (The merged
`fast_validates` descriptor list — the data-only hint handed to the C
dispatch layer — is not modelled; none of the behaviour below reads
it.) -/
structure CompoundParts where
  is_mapped : Bool
  has_items : Bool
  reversable : Bool
  validates : List VFn
  slow_validates : List VFn
  post_setattrs : List PFn

/-- The loop body of `TraitCompound.set_validate`, one handler at a
time: handlers with a `fast_validate` descriptor contribute to
`validates`, the rest to `slow_validates`; a present `post_setattr` is
collected; a mapped handler turns `is_mapped` on while a non-mapped one
turns `reversable` off; `has_items` is turned on by any handler having
it. -/
def set_validate_step (st : CompoundParts) (h : SubHandler) :
    CompoundParts :=
  let st :=
    if h.hasFastValidate then
      { st with validates := st.validates ++ [h.validate] }
    else
      { st with slow_validates := st.slow_validates ++ [h.validate] }
  let st :=
    match h.post_setattr with
    | some p => { st with post_setattrs := st.post_setattrs ++ [p] }
    | Option.none => st
  let st :=
    if h.is_mapped then { st with is_mapped := true }
    else { st with reversable := false }
  if h.has_items then { st with has_items := true } else st

/-- The initial state of `set_validate`: `is_mapped = False`,
`has_items = False`, `reversable = True`, empty lists. -/
def set_validate_init : CompoundParts :=
  { is_mapped := false
    has_items := false
    reversable := true
    validates := []
    slow_validates := []
    post_setattrs := [] }

/-- `TraitCompound.set_validate`, run over the handlers in declaration
order. -/
def TraitCompound.set_validate (c : TraitCompound) : CompoundParts :=
  c.handlers.foldl set_validate_step set_validate_init

/-- `TraitCompound.info`: the sub-handler descriptions joined with
" or ". -/
def TraitCompound.info (c : TraitCompound) : String :=
  String.intercalate " or " (c.handlers.map (·.info))

/-- The try/except loop shared by `TraitCompound.validate` and
`slow_validate`: call each function in order, returning the first
result that is not a raised `TraitError`. -/
def firstSuccess : List VFn → Obj → String → Value → Option Value
  | [], _, _, _ => Option.none
  | f :: fs, o, n, v =>
    match f o n v with
    | .ok r => some r
    | .error _ => firstSuccess fs o n v

/-- `TraitCompound.slow_validate`: try the slow branches in order; on
exhaustion raise with the compound's description. -/
def TraitCompound.slow_validate (c : TraitCompound) (o : Obj)
    (n : String) (v : Value) : Except TraitErr Value :=
  match firstSuccess c.set_validate.slow_validates o n v with
  | some r => .ok r
  | Option.none => .error (.validation c.info)

/-- `TraitCompound.validate`: try the fast-path-eligible branches in
order, then fall back to `slow_validate`. -/
def TraitCompound.validate (c : TraitCompound) (o : Obj) (n : String)
    (v : Value) : Except TraitErr Value :=
  match firstSuccess c.set_validate.validates o n v with
  | some r => .ok r
  | Option.none => c.slow_validate o n v

/-- The try/except loop of `TraitCompound._post_setattr`: the first
branch hook that does not raise wins. -/
def firstPost : List PFn → Obj → String → Value → Option Obj
  | [], _, _, _ => Option.none
  | p :: ps, o, n, v =>
    match p o n v with
    | .ok o2 => some o2
    | .error _ => firstPost ps o n v

/-- `TraitCompound._post_setattr`: try each collected branch hook in
order; if every one raises, write the raw validated value, unchanged,
to the shadow attribute. -/
def TraitCompound.post_setattr_dispatch (c : TraitCompound) (o : Obj)
    (n : String) (v : Value) : Obj :=
  match firstPost c.set_validate.post_setattrs o n v with
  | some o2 => o2
  | Option.none => o.setattr (n ++ "_") v

/-- The compound's own `post_setattr` attribute: `set_validate` installs
the dispatcher iff some sub-handler defined a hook, and deletes it
otherwise. -/
def TraitCompound.post_setattrOpt (c : TraitCompound) :
    Option (Obj → String → Value → Obj) :=
  if c.set_validate.post_setattrs.isEmpty then Option.none
  else some c.post_setattr_dispatch

/-- One step of `set_validate`, with its record updates flattened to
one update per field. -/
theorem set_validate_step_eq (st : CompoundParts) (h : SubHandler) :
    set_validate_step st h =
      { is_mapped := st.is_mapped || h.is_mapped
        has_items := st.has_items || h.has_items
        reversable := st.reversable && h.is_mapped
        validates :=
          st.validates ++ if h.hasFastValidate then [h.validate] else []
        slow_validates :=
          st.slow_validates ++
            if h.hasFastValidate then [] else [h.validate]
        post_setattrs := st.post_setattrs ++ h.post_setattr.toList } := by
  unfold set_validate_step
  rcases h with ⟨hf, hval, hpost, hm, hitems, hinfo⟩
  cases hf <;> cases hpost <;> cases hm <;> cases hitems <;> simp

/-- The accumulated `is_mapped` after the loop: true iff it started
true or some handler is mapped. -/
theorem foldl_step_is_mapped (hs : List SubHandler) (st : CompoundParts) :
    (hs.foldl set_validate_step st).is_mapped
      = (st.is_mapped || hs.any (·.is_mapped)) := by
  induction hs generalizing st with
  | nil => simp
  | cons h hs ih =>
    rw [List.foldl_cons, set_validate_step_eq, ih]
    simp [Bool.or_assoc]

/-- The accumulated `has_items` after the loop. -/
theorem foldl_step_has_items (hs : List SubHandler) (st : CompoundParts) :
    (hs.foldl set_validate_step st).has_items
      = (st.has_items || hs.any (·.has_items)) := by
  induction hs generalizing st with
  | nil => simp
  | cons h hs ih =>
    rw [List.foldl_cons, set_validate_step_eq, ih]
    simp [Bool.or_assoc]

/-- The accumulated `reversable` after the loop: true iff it started
true and every handler is mapped. -/
theorem foldl_step_reversable (hs : List SubHandler) (st : CompoundParts) :
    (hs.foldl set_validate_step st).reversable
      = (st.reversable && hs.all (·.is_mapped)) := by
  induction hs generalizing st with
  | nil => simp
  | cons h hs ih =>
    rw [List.foldl_cons, set_validate_step_eq, ih]
    simp [Bool.and_assoc]

/-- The accumulated `validates` list: the initial list followed by the
`validate` of every handler exposing `fast_validate`, in order. -/
theorem foldl_step_validates (hs : List SubHandler) (st : CompoundParts) :
    (hs.foldl set_validate_step st).validates
      = st.validates
        ++ (hs.filter (·.hasFastValidate)).map (·.validate) := by
  induction hs generalizing st with
  | nil => simp
  | cons h hs ih =>
    rw [List.foldl_cons, set_validate_step_eq, ih]
    cases hf : h.hasFastValidate <;> simp [hf]

/-- The accumulated `slow_validates` list: the `validate` of every
handler lacking `fast_validate`, in order. -/
theorem foldl_step_slow_validates (hs : List SubHandler)
    (st : CompoundParts) :
    (hs.foldl set_validate_step st).slow_validates
      = st.slow_validates
        ++ (hs.filter (fun h => !h.hasFastValidate)).map (·.validate) := by
  induction hs generalizing st with
  | nil => simp
  | cons h hs ih =>
    rw [List.foldl_cons, set_validate_step_eq, ih]
    cases hf : h.hasFastValidate <;> simp [hf]

/-- The accumulated `post_setattrs` list: every present branch hook, in
order. -/
theorem foldl_step_post_setattrs (hs : List SubHandler)
    (st : CompoundParts) :
    (hs.foldl set_validate_step st).post_setattrs
      = st.post_setattrs ++ hs.filterMap (·.post_setattr) := by
  induction hs generalizing st with
  | nil => simp
  | cons h hs ih =>
    rw [List.foldl_cons, set_validate_step_eq, ih]
    cases hp : h.post_setattr <;> simp [hp, List.filterMap_cons]

/-- A block of all-failing branches in front is skipped by the
try/except loop. -/
theorem firstSuccess_append_of_errors (fs gs : List VFn) (o : Obj)
    (n : String) (v : Value)
    (h : ∀ f, f ∈ fs → ∃ e, f o n v = Except.error e) :
    firstSuccess (fs ++ gs) o n v = firstSuccess gs o n v := by
  induction fs with
  | nil => rfl
  | cons f fs ih =>
    obtain ⟨e, he⟩ := h f (List.mem_cons_self _ _)
    rw [List.cons_append]
    show (match f o n v with
          | .ok r => some r
          | .error _ => firstSuccess (fs ++ gs) o n v) = _
    rw [he]
    exact ih (fun g hg => h g (List.mem_cons_of_mem _ hg))

/-- A succeeding branch at the head decides the try/except loop. -/
theorem firstSuccess_cons_ok (f : VFn) (fs : List VFn) (o : Obj)
    (n : String) (v : Value) (r : Value) (h : f o n v = Except.ok r) :
    firstSuccess (f :: fs) o n v = some r := by
  show (match f o n v with
        | .ok r => some r
        | .error _ => firstSuccess fs o n v) = _
  rw [h]

/-- A block of all-raising hooks in front is skipped by the
`_post_setattr` loop. -/
theorem firstPost_append_of_errors (ps qs : List PFn) (o : Obj)
    (n : String) (v : Value)
    (h : ∀ p, p ∈ ps → ∃ e, p o n v = Except.error e) :
    firstPost (ps ++ qs) o n v = firstPost qs o n v := by
  induction ps with
  | nil => rfl
  | cons p ps ih =>
    obtain ⟨e, he⟩ := h p (List.mem_cons_self _ _)
    rw [List.cons_append]
    show (match p o n v with
          | .ok o2 => some o2
          | .error _ => firstPost (ps ++ qs) o n v) = _
    rw [he]
    exact ih (fun q hq => h q (List.mem_cons_of_mem _ hq))

/-- A non-raising hook at the head decides the `_post_setattr` loop. -/
theorem firstPost_cons_ok (p : PFn) (ps : List PFn) (o : Obj)
    (n : String) (v : Value) (o2 : Obj) (h : p o n v = Except.ok o2) :
    firstPost (p :: ps) o n v = some o2 := by
  show (match p o n v with
        | .ok o2 => some o2
        | .error _ => firstPost ps o n v) = _
  rw [h]

/-- All hooks raising makes the `_post_setattr` loop fall through. -/
theorem firstPost_eq_none_of_errors (ps : List PFn) (o : Obj)
    (n : String) (v : Value)
    (h : ∀ p, p ∈ ps → ∃ e, p o n v = Except.error e) :
    firstPost ps o n v = Option.none := by
  induction ps with
  | nil => rfl
  | cons p ps ih =>
    obtain ⟨e, he⟩ := h p (List.mem_cons_self _ _)
    show (match p o n v with
          | .ok o2 => some o2
          | .error _ => firstPost ps o n v) = _
    rw [he]
    exact ih (fun q hq => h q (List.mem_cons_of_mem _ hq))

/-- The full strings a candidate matches: those whose prefix of the
candidate's own length equals the candidate. -/
def prefixMatches (values : List String) (v : String) : List String :=
  values.filter (fun key => v == key.take v.length)

/-- The unique element of a singleton list, `none` otherwise. -/
def onlyMatch : List String → Option String
  | [k] => some k
  | _ => Option.none

/-- Once a match is in hand, the scan loop survives only if no further
full string matches. -/
theorem prefixScan_some_acc (vs : List String) (v k : String) :
    prefixScan vs v (some k)
      = if prefixMatches vs v = [] then some k else Option.none := by
  induction vs with
  | nil => simp [prefixScan, prefixMatches]
  | cons x vs ih =>
    cases hx : (v == x.take v.length) with
    | true => simp [prefixScan, prefixMatches, hx, List.filter_cons]
    | false =>
      have h1 : prefixScan (x :: vs) v (some k)
          = prefixScan vs v (some k) := by
        simp [prefixScan, hx]
      have h2 : prefixMatches (x :: vs) v = prefixMatches vs v := by
        simp [prefixMatches, List.filter_cons, hx]
      rw [h1, h2, ih]

/-- The scan loop computes exactly the unique match: the single
matching full string when there is exactly one, `none` when there are
zero or several. -/
theorem prefixScan_eq_onlyMatch (vs : List String) (v : String) :
    prefixScan vs v Option.none = onlyMatch (prefixMatches vs v) := by
  induction vs with
  | nil => rfl
  | cons x vs ih =>
    cases hx : (v == x.take v.length) with
    | true =>
      have h1 : prefixScan (x :: vs) v Option.none
          = prefixScan vs v (some x) := by
        simp [prefixScan, hx]
      have h2 : prefixMatches (x :: vs) v = x :: prefixMatches vs v := by
        simp [prefixMatches, List.filter_cons, hx]
      rw [h1, h2, prefixScan_some_acc]
      rcases hm : prefixMatches vs v with _ | ⟨y, ys⟩
      · simp [onlyMatch]
      · simp [onlyMatch]
    | false =>
      have h1 : prefixScan (x :: vs) v Option.none
          = prefixScan vs v Option.none := by
        simp [prefixScan, hx]
      have h2 : prefixMatches (x :: vs) v = prefixMatches vs v := by
        simp [prefixMatches, List.filter_cons, hx]
      rw [h1, h2, ih]

/-- `onlyMatch` yields `none` exactly when the list is not a
singleton. -/
theorem onlyMatch_eq_none_iff (xs : List String) :
    onlyMatch xs = Option.none ↔ xs.length ≠ 1 := by
  rcases xs with _ | ⟨x, _ | ⟨y, ys⟩⟩ <;> simp [onlyMatch]

/-- The element loop of `TraitTuple.validate` succeeds exactly when
every element is accepted by its slot, producing the per-slot
results. -/
theorem validateSlots_ok_iff (o : Obj) (n : String) (fs : List VFn)
    (xs : List Value) (hlen : xs.length = fs.length) (vs : List Value) :
    validateSlots o n fs xs = Except.ok vs
      ↔ List.Forall₂ (fun fx r => fx.1 o n fx.2 = Except.ok r)
          (fs.zip xs) vs := by
  induction fs generalizing xs vs with
  | nil =>
    rcases xs with _ | ⟨x, xs⟩
    · constructor
      · intro h
        cases h
        exact List.Forall₂.nil
      · intro h
        cases h
        rfl
    · exact absurd hlen (by simp)
  | cons f fs ih =>
    rcases xs with _ | ⟨x, xs⟩
    · exact absurd hlen (by simp)
    · have hlen2 : xs.length = fs.length := by
        simpa using hlen
      constructor
      · intro h
        rcases hf : f o n x with e | r
        · rw [show validateSlots o n (f :: fs) (x :: xs)
                = Except.error e by simp [validateSlots, hf]] at h
          cases h
        · rcases hrest : validateSlots o n fs xs with e2 | rs
          · rw [show validateSlots o n (f :: fs) (x :: xs)
                  = Except.error e2 by simp [validateSlots, hf, hrest]] at h
            cases h
          · rw [show validateSlots o n (f :: fs) (x :: xs)
                  = Except.ok (r :: rs) by simp [validateSlots, hf, hrest]] at h
            cases h
            exact List.Forall₂.cons hf ((ih xs hlen2 rs).mp hrest)
      · intro h
        rw [show (f :: fs).zip (x :: xs) = (f, x) :: fs.zip xs from rfl] at h
        cases h with
        | cons hfx hrest =>
          rename_i r rs
          have hfx2 : f o n x = Except.ok r := hfx
          simp [validateSlots, hfx2, (ih xs hlen2 rs).mpr hrest]

/-- The handler of `trait_from(None)`: a trait that performs no
checking, accepting anything unchanged. -/
def anyValue : VFn := fun _ _ v => Except.ok v

/-- `TraitEnum("b")`. -/
def enumB : TraitEnum := ⟨[.str "b"]⟩

/-- `TraitEnum("a", "b")`. -/
def enumAB : TraitEnum := ⟨[.str "a", .str "b"]⟩

/-- `TraitMap({"yes": 1, "no": 0})`. -/
def mapYesNo : TraitMap := ⟨[(.str "yes", .int 1), (.str "no", .int 0)]⟩

/-- `TraitMap({"true": 1, "false": 0})`. -/
def mapTF : TraitMap := ⟨[(.str "true", .int 1), (.str "false", .int 0)]⟩

/-- `TraitEnum(1, ..., 13)`, the card-rank slot. -/
def rankEnum : TraitEnum :=
  ⟨(List.range 13).map (fun i => Value.int ((i : Int) + 1))⟩

/-- `TraitEnum("H", "D", "S", "C")`, the card-suit slot. -/
def suitEnum : TraitEnum :=
  ⟨[.str "H", .str "D", .str "S", .str "C"]⟩

/-- `TraitTuple(rank, suit)`. -/
def cardTuple : TraitTuple := ⟨[rankEnum.validate, suitEnum.validate]⟩

/-- C6: for every `CoerceValidator` with target type `T` and every
candidate `v`: if `v`'s type is exactly `T`, `validate` returns `v`
unchanged; if `v`'s type appears in `T`'s widening table (integer
widens to real, and real or integer widen to complex), `validate`
returns `v` converted to `T`; any other candidate type raises a
`ValidationError`.  In particular `CoerceValidator(float)` accepts an
integer candidate, whose result is the exact real-valued widening,
and rejects a text candidate. -/
theorem trait_coerce_type_widening (h : TraitCoerceType) (o : Obj)
    (n : String) (v : Value) :
    (typeOf v = h.aType → h.validate o n v = Except.ok v)
  ∧ (typeOf v ≠ h.aType → (h.coerceList.contains (typeOf v)) = true →
      h.validate o n v = Except.ok (widen h.aType v))
  ∧ (typeOf v ≠ h.aType → (h.coerceList.contains (typeOf v)) = false →
      h.validate o n v = Except.error (TraitErr.validation h.info))
  ∧ CoercableTypes PyType.float = some [PyType.int]
  ∧ CoercableTypes PyType.complex = some [PyType.float, PyType.int]
  ∧ (∀ i : Int, (TraitCoerceType.mk PyType.float).validate o n (Value.int i)
      = Except.ok (Value.float (i : ℚ)))
  ∧ (∀ s : String, (TraitCoerceType.mk PyType.float).validate o n (Value.str s)
      = Except.error
          (TraitErr.validation (TraitCoerceType.mk PyType.float).info)) := by
  refine ⟨?_, ?_, ?_, rfl, rfl, fun i => rfl, fun s => rfl⟩
  · intro ht
    simp [TraitCoerceType.validate, ht]
  · intro ht hc
    unfold TraitCoerceType.validate
    rw [if_neg ht, if_pos hc]
  · intro ht hc
    have hnc : ¬((h.coerceList.contains (typeOf v)) = true) := by
      rw [hc]
      simp
    unfold TraitCoerceType.validate
    rw [if_neg ht, if_neg hnc]

/-- C6 witness: `CoerceValidator(float)` widens the integer 5 through
the coercion table. -/
theorem trait_coerce_type_widening_witness :
    (TraitCoerceType.mk PyType.float).validate [] "weight" (Value.int 5)
      = Except.ok (widen PyType.float (Value.int 5)) :=
  (trait_coerce_type_widening (TraitCoerceType.mk PyType.float) [] "weight"
      (Value.int 5)).2.1 (by decide) rfl

/-- C10: `CoerceValidator` tests the candidate's runtime type by exact
type identity, not by subclass membership: a boolean candidate is a
strict subclass instance of `int` yet is rejected by
`CoerceValidator(int)` (booleans are not separately listed in `int`'s
widening table, which is empty); in general any candidate whose type
is neither exactly the target nor in the table raises. -/
theorem trait_coerce_type_exact_identity (o : Obj) (n : String)
    (b : Bool) :
    isStrictSubclassOf (typeOf (Value.bool b)) PyType.int = true
  ∧ typeOf (Value.bool b) ≠ PyType.int
  ∧ (TraitCoerceType.mk PyType.int).coerceList = []
  ∧ (TraitCoerceType.mk PyType.int).validate o n (Value.bool b)
      = Except.error
          (TraitErr.validation (TraitCoerceType.mk PyType.int).info)
  ∧ (∀ h : TraitCoerceType, ∀ v : Value, typeOf v ≠ h.aType →
      (h.coerceList.contains (typeOf v)) = false →
      h.validate o n v = Except.error (TraitErr.validation h.info)) := by
  refine ⟨rfl, by simp [typeOf], rfl, rfl, ?_⟩
  intro h v ht hc
  have hnc : ¬((h.coerceList.contains (typeOf v)) = true) := by
    rw [hc]
    simp
  unfold TraitCoerceType.validate
  rw [if_neg ht, if_neg hnc]

/-- C10 witness: `CoerceValidator(int)` rejects `True`. -/
theorem trait_coerce_type_exact_identity_witness :
    (TraitCoerceType.mk PyType.int).validate [] "count" (Value.bool true)
      = Except.error
          (TraitErr.validation (TraitCoerceType.mk PyType.int).info) :=
  (trait_coerce_type_exact_identity [] "count" true).2.2.2.2
    (TraitCoerceType.mk PyType.int) (Value.bool true) (by decide) rfl

/-- C1: for every `CompoundValidator` and every (owner, name,
candidate), `validate` tries the `validate` of each sub-validator that
exposes a fast-path descriptor, in declaration order, returning the
result of the first that does not raise; only if all of those fail
does it try each sub-validator lacking a fast-path descriptor, in
order; if every branch fails it raises a `ValidationError`.  When
several branches accept, the result is that of the earliest eligible
branch (last conjunct). -/
theorem trait_compound_first_match (c : TraitCompound) (o : Obj)
    (n : String) (v : Value) :
    c.set_validate.validates
      = (c.handlers.filter (·.hasFastValidate)).map (·.validate)
  ∧ c.set_validate.slow_validates
      = (c.handlers.filter (fun h => !h.hasFastValidate)).map (·.validate)
  ∧ c.validate o n v
      = (match firstSuccess
            ((c.handlers.filter (·.hasFastValidate)).map (·.validate))
            o n v with
         | some r => Except.ok r
         | Option.none =>
           match firstSuccess
               ((c.handlers.filter (fun h => !h.hasFastValidate)).map
                 (·.validate)) o n v with
           | some r => Except.ok r
           | Option.none => Except.error (TraitErr.validation c.info))
  ∧ (∀ pre h2 post r, c.handlers = pre ++ h2 :: post →
      h2.hasFastValidate = true →
      (∀ h3, h3 ∈ pre → h3.hasFastValidate = true →
        ∃ e, h3.validate o n v = Except.error e) →
      h2.validate o n v = Except.ok r →
      c.validate o n v = Except.ok r) := by
  have hv1 : c.set_validate.validates
      = (c.handlers.filter (·.hasFastValidate)).map (·.validate) := by
    unfold TraitCompound.set_validate
    rw [foldl_step_validates]
    simp [set_validate_init]
  have hv2 : c.set_validate.slow_validates
      = (c.handlers.filter (fun h => !h.hasFastValidate)).map
          (·.validate) := by
    unfold TraitCompound.set_validate
    rw [foldl_step_slow_validates]
    simp [set_validate_init]
  refine ⟨hv1, hv2, ?_, ?_⟩
  · unfold TraitCompound.validate TraitCompound.slow_validate
    rw [hv1, hv2]
  · intro pre h2 post r hsplit hfast hfail hok
    have hlist : c.set_validate.validates
        = ((pre.filter (·.hasFastValidate)).map (·.validate))
          ++ h2.validate
            :: ((post.filter (·.hasFastValidate)).map (·.validate)) := by
      rw [hv1, hsplit]
      simp [List.filter_append, List.filter_cons, hfast]
    have herrs : ∀ f,
        f ∈ (pre.filter (·.hasFastValidate)).map (·.validate) →
        ∃ e, f o n v = Except.error e := by
      intro f hf
      rcases List.mem_map.mp hf with ⟨h3, hh3, rfl⟩
      rcases List.mem_filter.mp hh3 with ⟨hmem, hfast3⟩
      exact hfail h3 hmem hfast3
    have hskip : firstSuccess c.set_validate.validates o n v = some r := by
      rw [hlist, firstSuccess_append_of_errors _ _ _ _ _ herrs,
        firstSuccess_cons_ok _ _ _ _ _ _ hok]
    unfold TraitCompound.validate
    rw [hskip]

/-- C1 witness: in `CompoundValidator([Enum("b"), Enum("a","b")])` the
first branch fails on "a" and the second, fast-path eligible, accepts
it. -/
theorem trait_compound_first_match_witness :
    (TraitCompound.mk [enumB.toSubHandler, enumAB.toSubHandler]).validate
        [] "kind" (Value.str "a")
      = Except.ok (Value.str "a") :=
  (trait_compound_first_match
      (TraitCompound.mk [enumB.toSubHandler, enumAB.toSubHandler])
      [] "kind" (Value.str "a")).2.2.2
    [enumB.toSubHandler] enumAB.toSubHandler [] (Value.str "a") rfl rfl
    (fun h3 hmem _ => by
      cases List.mem_singleton.mp hmem
      exact ⟨TraitErr.validation enumB.info, rfl⟩)
    rfl

/-- C2: after construction a `CompoundValidator`'s `is_mapped` is true
iff at least one sub-validator is mapped, and `reversable` is true only
if every sub-validator is mapped — a single non-mapped branch makes it
false; a compound of two `MapValidator`s is reversable, and a compound
of a `MapValidator` and an `EnumValidator` is `is_mapped` but not
`reversable`. -/
theorem trait_compound_mapped_reversable (hs : List SubHandler) :
    (TraitCompound.mk hs).set_validate.is_mapped
      = hs.any (·.is_mapped)
  ∧ (TraitCompound.mk hs).set_validate.reversable
      = hs.all (·.is_mapped)
  ∧ (∀ h2, h2 ∈ hs → h2.is_mapped = false →
      (TraitCompound.mk hs).set_validate.reversable = false)
  ∧ (TraitCompound.mk
      [mapYesNo.toSubHandler, mapTF.toSubHandler]).set_validate.reversable
      = true
  ∧ (TraitCompound.mk
      [mapYesNo.toSubHandler, enumAB.toSubHandler]).set_validate.is_mapped
      = true
  ∧ (TraitCompound.mk
      [mapYesNo.toSubHandler, enumAB.toSubHandler]).set_validate.reversable
      = false := by
  have h1 : (TraitCompound.mk hs).set_validate.is_mapped
      = hs.any (·.is_mapped) := by
    unfold TraitCompound.set_validate
    rw [foldl_step_is_mapped]
    simp [set_validate_init]
  have h2 : (TraitCompound.mk hs).set_validate.reversable
      = hs.all (·.is_mapped) := by
    unfold TraitCompound.set_validate
    rw [foldl_step_reversable]
    simp [set_validate_init]
  refine ⟨h1, h2, ?_, rfl, rfl, rfl⟩
  intro h3 hmem hfalse
  rw [h2]
  cases hall : hs.all (·.is_mapped) with
  | false => rfl
  | true =>
    have := List.all_eq_true.mp hall h3 hmem
    rw [hfalse] at this
    cases this

/-- C2 witness: the `EnumValidator` branch is non-mapped, so the
`Map + Enum` compound is not reversable. -/
theorem trait_compound_mapped_reversable_witness :
    (TraitCompound.mk
        [mapYesNo.toSubHandler, enumAB.toSubHandler]).set_validate.reversable
      = false :=
  (trait_compound_mapped_reversable
      [mapYesNo.toSubHandler, enumAB.toSubHandler]).2.2.1
    enumAB.toSubHandler (by simp) rfl

/-- C5: when at least one sub-validator defines a `post_assign` hook
the compound's dispatcher tries each collected hook in order, stopping
at the first that does not raise; if every tried hook raises, it writes
the raw validated value unchanged to the shadow attribute; when no
sub-validator defines a hook the compound defines none. -/
theorem trait_compound_post_setattr_fallback (c : TraitCompound)
    (o : Obj) (n : String) (v : Value) :
    c.set_validate.post_setattrs
      = c.handlers.filterMap (·.post_setattr)
  ∧ (c.post_setattrOpt = Option.none
      ↔ c.handlers.filterMap (·.post_setattr) = [])
  ∧ (∀ ps1 p ps2 o2,
      c.handlers.filterMap (·.post_setattr) = ps1 ++ p :: ps2 →
      (∀ q, q ∈ ps1 → ∃ e, q o n v = Except.error e) →
      p o n v = Except.ok o2 →
      c.post_setattr_dispatch o n v = o2)
  ∧ ((∀ q, q ∈ c.handlers.filterMap (·.post_setattr) →
        ∃ e, q o n v = Except.error e) →
      c.post_setattr_dispatch o n v = o.setattr (n ++ "_") v) := by
  have hp : c.set_validate.post_setattrs
      = c.handlers.filterMap (·.post_setattr) := by
    unfold TraitCompound.set_validate
    rw [foldl_step_post_setattrs]
    simp [set_validate_init]
  refine ⟨hp, ?_, ?_, ?_⟩
  · unfold TraitCompound.post_setattrOpt
    rw [hp]
    cases hh : c.handlers.filterMap (·.post_setattr) with
    | nil => simp
    | cons q qs => simp
  · intro ps1 p ps2 o2 hsplit herrs hok
    have hfirst : firstPost c.set_validate.post_setattrs o n v = some o2 := by
      rw [hp, hsplit, firstPost_append_of_errors _ _ _ _ _ herrs,
        firstPost_cons_ok _ _ _ _ _ _ hok]
    unfold TraitCompound.post_setattr_dispatch
    rw [hfirst]
  · intro herrs
    have hnone : firstPost c.set_validate.post_setattrs o n v
        = Option.none := by
      rw [hp]
      exact firstPost_eq_none_of_errors _ _ _ _ herrs
    unfold TraitCompound.post_setattr_dispatch
    rw [hnone]

/-- The compound `Map({"yes": 1, "no": 0}) | Map({"true": 1,
"false": 0})` used to exercise the post-assign dispatcher. -/
def c5compound : TraitCompound :=
  ⟨[mapYesNo.toSubHandler, mapTF.toSubHandler]⟩

/-- C5 witness: on "true" the first map branch signals unmappable and
the second writes the shadow value; on a value in neither map both
branches signal unmappable and the raw value is written unchanged. -/
theorem trait_compound_post_setattr_fallback_witness :
    c5compound.post_setattr_dispatch [] "married" (Value.str "true")
      = Obj.setattr [] ("married" ++ "_") (Value.int 1)
  ∧ c5compound.post_setattr_dispatch [] "married" (Value.str "huh")
      = Obj.setattr [] ("married" ++ "_") (Value.str "huh") := by
  constructor
  · exact (trait_compound_post_setattr_fallback c5compound [] "married"
        (Value.str "true")).2.2.1
      [mapYesNo.post_setattr] mapTF.post_setattr []
      (Obj.setattr [] ("married" ++ "_") (Value.int 1)) rfl
      (fun q hq => by
        cases List.mem_singleton.mp hq
        exact ⟨TraitErr.unmappable, rfl⟩)
      rfl
  · exact (trait_compound_post_setattr_fallback c5compound [] "married"
        (Value.str "huh")).2.2.2
      (fun q hq => by
        rcases List.mem_cons.mp hq with h | h
        · cases h
          exact ⟨TraitErr.unmappable, rfl⟩
        · cases List.mem_singleton.mp h
          exact ⟨TraitErr.unmappable, rfl⟩)

/-- C3: for a `PrefixEnumValidator` and a candidate not in the cache,
`validate` compares the candidate against each full string's prefix of
the candidate's own length; exactly one match is cached and returned;
zero or several matches raise (ambiguity is failure, never
first-match).  For members ("yes", "no"): "y", "ye", "yes" resolve to
"yes"; "n", "no" resolve to "no"; "" is rejected. -/
theorem trait_prefix_list_unambiguous (h : TraitPrefixList) (o : Obj)
    (n : String) (v : String)
    (hv : lookupCache h.values_ v = Option.none) :
    (∀ k, prefixMatches h.values v = [k] →
      h.validate o n v
        = Except.ok (k, { h with values_ := h.values_ ++ [(v, k)] }))
  ∧ ((prefixMatches h.values v).length ≠ 1 →
      h.validate o n v = Except.error (TraitErr.validation h.info))
  ∧ (TraitPrefixList.make ["yes", "no"]).validate o n "y"
      = Except.ok ("yes",
          ⟨["yes", "no"], [("yes", "yes"), ("no", "no"), ("y", "yes")]⟩)
  ∧ (TraitPrefixList.make ["yes", "no"]).validate o n "ye"
      = Except.ok ("yes",
          ⟨["yes", "no"], [("yes", "yes"), ("no", "no"), ("ye", "yes")]⟩)
  ∧ (TraitPrefixList.make ["yes", "no"]).validate o n "yes"
      = Except.ok ("yes", TraitPrefixList.make ["yes", "no"])
  ∧ (TraitPrefixList.make ["yes", "no"]).validate o n "n"
      = Except.ok ("no",
          ⟨["yes", "no"], [("yes", "yes"), ("no", "no"), ("n", "no")]⟩)
  ∧ (TraitPrefixList.make ["yes", "no"]).validate o n "no"
      = Except.ok ("no", TraitPrefixList.make ["yes", "no"])
  ∧ (TraitPrefixList.make ["yes", "no"]).validate o n ""
      = Except.error
          (TraitErr.validation (TraitPrefixList.make ["yes", "no"]).info) := by
  refine ⟨?_, ?_, rfl, rfl, rfl, rfl, rfl, rfl⟩
  · intro k hk
    have hscan : prefixScan h.values v Option.none = some k := by
      rw [prefixScan_eq_onlyMatch, hk]
      rfl
    simp [TraitPrefixList.validate, hv, hscan]
  · intro hk
    have hscan : prefixScan h.values v Option.none = Option.none := by
      rw [prefixScan_eq_onlyMatch]
      exact (onlyMatch_eq_none_iff _).mpr hk
    simp [TraitPrefixList.validate, hv, hscan]

/-- C3 witness: "ye" is not in the fresh cache and prefixes exactly
"yes", so it resolves to "yes" and is cached. -/
theorem trait_prefix_list_unambiguous_witness :
    (TraitPrefixList.make ["yes", "no"]).validate [] "married" "ye"
      = Except.ok ("yes",
          { TraitPrefixList.make ["yes", "no"] with
              values_ := (TraitPrefixList.make ["yes", "no"]).values_
                ++ [("ye", "yes")] }) :=
  (trait_prefix_list_unambiguous (TraitPrefixList.make ["yes", "no"])
      [] "married" "ye" rfl).1 "yes" rfl

/-- C4: `MapValidator.validate` succeeds iff the candidate is a key of
the mapping and then returns the key itself unchanged; `post_assign`
writes the mapped value to the attribute named with a trailing
underscore, and a failing shadow-value computation raises the distinct
"Unmappable" error, which is not a `validation` error. -/
theorem trait_map_key_and_shadow (h : TraitMap) (o : Obj) (n : String)
    (v : Value) :
    (h.validate o n v = Except.ok v
      ↔ ∃ p, p ∈ h.map ∧ pyEq v p.1 = true)
  ∧ (h.validate o n v = Except.ok v
      ∨ h.validate o n v = Except.error (TraitErr.validation h.info))
  ∧ (∀ mv, lookupPy h.map v = some mv →
      h.post_setattr o n v = Except.ok (o.setattr (n ++ "_") mv))
  ∧ (lookupPy h.map v = Option.none →
      h.post_setattr o n v = Except.error TraitErr.unmappable)
  ∧ (∀ s, TraitErr.unmappable ≠ TraitErr.validation s) := by
  refine ⟨?_, ?_, ?_, ?_, fun s hcon => TraitErr.noConfusion hcon⟩
  · cases hk : keyMem h.map v with
    | true =>
      simp only [TraitMap.validate, hk, if_true]
      simp only [true_iff]
      exact List.any_eq_true.mp hk
    | false =>
      simp only [TraitMap.validate, hk]
      simp only [Bool.false_eq_true, if_false]
      constructor
      · intro hcon
        cases hcon
      · intro ⟨p, hp, hpe⟩
        have : keyMem h.map v = true :=
          List.any_eq_true.mpr ⟨p, hp, hpe⟩
        rw [hk] at this
        cases this
  · cases hk : keyMem h.map v with
    | true => exact Or.inl (by simp [TraitMap.validate, hk])
    | false => exact Or.inr (by simp [TraitMap.validate, hk])
  · intro mv hmv
    simp [TraitMap.post_setattr, TraitMap.mapped_value, hmv]
  · intro hmv
    simp [TraitMap.post_setattr, TraitMap.mapped_value, hmv]

/-- C4 witness: for `Map({"yes": 1, "no": 0})` on attribute `married`,
validating "yes" returns the key unchanged and `post_assign` writes 1
to `married_`; a non-key fails as "Unmappable". -/
theorem trait_map_key_and_shadow_witness :
    mapYesNo.validate [] "married" (Value.str "yes")
      = Except.ok (Value.str "yes")
  ∧ mapYesNo.post_setattr [] "married" (Value.str "yes")
      = Except.ok (Obj.setattr [] ("married" ++ "_") (Value.int 1))
  ∧ mapYesNo.post_setattr [] "married" (Value.str "maybe")
      = Except.error TraitErr.unmappable := by
  refine ⟨?_, ?_, ?_⟩
  · exact (trait_map_key_and_shadow mapYesNo [] "married"
        (Value.str "yes")).1.mpr
      ⟨(Value.str "yes", Value.int 1), by simp [mapYesNo], rfl⟩
  · exact (trait_map_key_and_shadow mapYesNo [] "married"
        (Value.str "yes")).2.2.1 (Value.int 1) rfl
  · exact (trait_map_key_and_shadow mapYesNo [] "married"
        (Value.str "maybe")).2.2.2.1 rfl

/-- C7: `FixedTupleValidator.validate` accepts exactly the tuples of
the configured arity whose i-th element is accepted by the i-th slot
validator, returning the new tuple of per-slot validated elements; any
slot failure, non-tuple, or wrong-length candidate raises the tuple
handler's own `ValidationError` with no partial result. -/
theorem trait_tuple_per_slot (h : TraitTuple) (o : Obj) (n : String)
    (v : Value) :
    (∀ w, h.validate o n v = Except.ok w ↔
      ∃ xs vs, v = Value.tuple xs ∧ xs.length = h.types.length ∧
        List.Forall₂ (fun fx r => fx.1 o n fx.2 = Except.ok r)
          (h.types.zip xs) vs ∧
        w = Value.tuple vs)
  ∧ ((∃ w, h.validate o n v = Except.ok w)
      ∨ h.validate o n v
          = Except.error (TraitErr.validation h.info)) := by
  constructor
  · intro w
    constructor
    · intro hw
      cases v with
      | int i => simp [TraitTuple.validate] at hw
      | float q => simp [TraitTuple.validate] at hw
      | complex re im => simp [TraitTuple.validate] at hw
      | str s => simp [TraitTuple.validate] at hw
      | bool b => simp [TraitTuple.validate] at hw
      | list xs => simp [TraitTuple.validate] at hw
      | pyNone => simp [TraitTuple.validate] at hw
      | tuple xs =>
        by_cases hl : xs.length = h.types.length
        · rcases hres : validateSlots o n h.types xs with e | vs
          · rw [show TraitTuple.validate h o n (Value.tuple xs)
                  = Except.error (TraitErr.validation h.info) by
                  simp [TraitTuple.validate, hl, hres]] at hw
            cases hw
          · rw [show TraitTuple.validate h o n (Value.tuple xs)
                  = Except.ok (Value.tuple vs) by
                  simp [TraitTuple.validate, hl, hres]] at hw
            cases hw
            exact ⟨xs, vs, rfl, hl,
              (validateSlots_ok_iff o n h.types xs hl vs).mp hres, rfl⟩
        · rw [show TraitTuple.validate h o n (Value.tuple xs)
                = Except.error (TraitErr.validation h.info) by
                simp [TraitTuple.validate, hl]] at hw
          cases hw
    · intro hex
      rcases hex with ⟨xs, vs, rfl, hl, hfa, rfl⟩
      have hres : validateSlots o n h.types xs = Except.ok vs :=
        (validateSlots_ok_iff o n h.types xs hl vs).mpr hfa
      simp [TraitTuple.validate, hl, hres]
  · cases v with
    | int i => exact Or.inr rfl
    | float q => exact Or.inr rfl
    | complex re im => exact Or.inr rfl
    | str s => exact Or.inr rfl
    | bool b => exact Or.inr rfl
    | list xs => exact Or.inr rfl
    | pyNone => exact Or.inr rfl
    | tuple xs =>
      by_cases hl : xs.length = h.types.length
      · rcases hres : validateSlots o n h.types xs with e | vs
        · exact Or.inr (by simp [TraitTuple.validate, hl, hres])
        · exact Or.inl ⟨Value.tuple vs,
            by simp [TraitTuple.validate, hl, hres]⟩
      · exact Or.inr (by simp [TraitTuple.validate, hl])

/-- C7 witness: `TraitTuple(Enum(1..13), Enum("H","D","S","C"))`
accepts `(5, "H")`, validating each slot. -/
theorem trait_tuple_per_slot_witness :
    cardTuple.validate [] "value"
        (Value.tuple [Value.int 5, Value.str "H"])
      = Except.ok (Value.tuple [Value.int 5, Value.str "H"]) :=
  ((trait_tuple_per_slot cardTuple [] "value"
      (Value.tuple [Value.int 5, Value.str "H"])).1
    (Value.tuple [Value.int 5, Value.str "H"])).mpr
    ⟨[Value.int 5, Value.str "H"], [Value.int 5, Value.str "H"],
      rfl, rfl,
      List.Forall₂.cons rfl (List.Forall₂.cons rfl List.Forall₂.nil),
      rfl⟩

/-- C8 counterexample: the claim "the stored maximum length is at least
the stored minimum length for every pair of integer arguments" is
false, because `__init__` clamps `maxlen` against the raw `minlen`
argument, not the already-clamped stored minimum: with arguments
`minlen = -1, maxlen = -2` the stored minimum is 0 and the stored
maximum is -1. -/
theorem trait_list_bounds_counterexample :
    (TraitList.make anyValue (-1) (-2) true).minlen = 0
  ∧ (TraitList.make anyValue (-1) (-2) true).maxlen = -1
  ∧ ¬((TraitList.make anyValue (-1) (-2) true).minlen
      ≤ (TraitList.make anyValue (-1) (-2) true).maxlen) := by
  refine ⟨by decide, by decide, by decide⟩

/-- C8 (amended): the stored minimum is clamped to at least 0 and the
stored maximum to at least the raw `minlen` argument, so the interval
is well-formed whenever the `minlen` argument is non-negative (but not
for every pair of integer arguments); a candidate list is accepted
exactly when its length lies within the stored bounds, and is returned
seeded with its elements. -/
theorem trait_list_bounds_amended (t : VFn) (minlen maxlen : Int)
    (hi : Bool) (o : Obj) (n : String) (xs : List Value) :
    0 ≤ (TraitList.make t minlen maxlen hi).minlen
  ∧ (TraitList.make t minlen maxlen hi).maxlen = max minlen maxlen
  ∧ (0 ≤ minlen →
      (TraitList.make t minlen maxlen hi).minlen
        ≤ (TraitList.make t minlen maxlen hi).maxlen)
  ∧ ((∃ w, (TraitList.make t minlen maxlen hi).validate o n
        (Value.list xs) = Except.ok w)
      ↔ ((TraitList.make t minlen maxlen hi).minlen ≤ (xs.length : Int)
          ∧ (xs.length : Int) ≤ (TraitList.make t minlen maxlen hi).maxlen))
  ∧ (∀ w, (TraitList.make t minlen maxlen hi).validate o n
        (Value.list xs) = Except.ok w → w = Value.list xs) := by
  refine ⟨le_max_left 0 minlen, rfl, ?_, ?_, ?_⟩
  · intro h0
    show max 0 minlen ≤ max minlen maxlen
    rw [max_eq_right h0]
    exact le_max_left minlen maxlen
  · constructor
    · intro ⟨w, hw⟩
      by_cases hcond : (TraitList.make t minlen maxlen hi).minlen
            ≤ (xs.length : Int)
          ∧ (xs.length : Int) ≤ (TraitList.make t minlen maxlen hi).maxlen
      · exact hcond
      · rw [show (TraitList.make t minlen maxlen hi).validate o n
              (Value.list xs)
              = Except.error
                  (TraitErr.validation
                    (TraitList.make t minlen maxlen hi).info) by
              simp only [TraitList.validate]
              rw [if_neg hcond]] at hw
        cases hw
    · intro hcond
      exact ⟨Value.list xs, by
        simp only [TraitList.validate]
        rw [if_pos hcond]⟩
  · intro w hw
    by_cases hcond : (TraitList.make t minlen maxlen hi).minlen
          ≤ (xs.length : Int)
        ∧ (xs.length : Int) ≤ (TraitList.make t minlen maxlen hi).maxlen
    · rw [show (TraitList.make t minlen maxlen hi).validate o n
            (Value.list xs) = Except.ok (Value.list xs) by
            simp only [TraitList.validate]
            rw [if_pos hcond]] at hw
      cases hw
      rfl
    · rw [show (TraitList.make t minlen maxlen hi).validate o n
            (Value.list xs)
            = Except.error
                (TraitErr.validation
                  (TraitList.make t minlen maxlen hi).info) by
            simp only [TraitList.validate]
            rw [if_neg hcond]] at hw
      cases hw

/-- C8 witness: with non-negative `minlen` the stored interval is
well-formed, and a 3-element list is accepted within bounds
`[0, 52]`. -/
theorem trait_list_bounds_amended_witness :
    (TraitList.make anyValue 0 52 true).minlen
      ≤ (TraitList.make anyValue 0 52 true).maxlen
  ∧ (TraitList.make anyValue 0 52 true).validate [] "cards"
        (Value.list (List.replicate 3 (Value.int 0)))
      = Except.ok (Value.list (List.replicate 3 (Value.int 0))) := by
  constructor
  · exact (trait_list_bounds_amended anyValue 0 52 true [] "cards"
        []).2.2.1 (by decide)
  · obtain ⟨w, hw⟩ := (trait_list_bounds_amended anyValue 0 52 true []
        "cards" (List.replicate 3 (Value.int 0))).2.2.2.1.mpr
      (by constructor <;> decide)
    have hww := (trait_list_bounds_amended anyValue 0 52 true [] "cards"
        (List.replicate 3 (Value.int 0))).2.2.2.2 w hw
    exact hww ▸ hw

/-- C9: when the supplied value validator has its item-tracking flag
set, `TypedMappingValidator` construction stores a clone of it with
item-tracking disabled as the working value handler, and the original
value validator is left unmodified with its flag still set. -/
theorem trait_dict_value_handler_clone (kt : VFn) (vt : TraitList)
    (hi : Bool) (hv : vt.has_items = true) :
    (TraitDict.make kt vt hi).value_handler
      = { vt.clone with has_items := false }
  ∧ (TraitDict.make kt vt hi).value_handler.has_items = false
  ∧ (TraitDict.make kt vt hi).value_trait = vt
  ∧ (TraitDict.make kt vt hi).value_trait.has_items = true := by
  have hmake : (TraitDict.make kt vt hi).value_handler
      = { vt.clone with has_items := false } := by
    unfold TraitDict.make
    simp [hv]
  refine ⟨hmake, ?_, rfl, hv⟩
  rw [hmake]

/-- An item-tracking bounded list validator, the value trait for the
C9 witness. -/
def vtSample : TraitList := TraitList.make anyValue 0 10 true

/-- C9 witness: a mapping validator over an item-tracking list
validator disables tracking on its stored working handler and keeps the
original intact. -/
theorem trait_dict_value_handler_clone_witness :
    (TraitDict.make anyValue vtSample true).value_handler.has_items
      = false
  ∧ (TraitDict.make anyValue vtSample true).value_trait = vtSample :=
  ⟨(trait_dict_value_handler_clone anyValue vtSample true rfl).2.1,
   (trait_dict_value_handler_clone anyValue vtSample true rfl).2.2.1⟩
